import Mathlib

/-!
# Portable Shazam — audio capture pipeline, shallow embedding

A shallow embedding of `src/audio_capture.py` (module `AudioCapture`):
device enumeration, loopback resolution, the level meter, the capture
loop, and the waveform encoder (`_convert_to_wav`).

Conventions:
* Python strings are embedded as `List Char`; `a in b` (substring test)
  becomes `containsL b a`.
* numpy float arrays are embedded as `List ℚ` (exact rational
  arithmetic in place of IEEE doubles; every claim checked here is
  stable under this choice — it concerns ordering of operations,
  truncation vs. rounding, and bounds that hold exactly in ℚ).
* Exceptions are embedded as `Except`: `AudioCaptureError` and numpy's
  `ValueError` are the two failure constructors.
-/

namespace PortableShazam

/-! ## Strings as character lists -/

/-- Prefix test on character lists: `isPrefixL n h` is true when `n` is an
initial segment of `h`. -/
def isPrefixL : List Char → List Char → Bool
  | [], _ => true
  | _ :: _, [] => false
  | a :: as, b :: bs => a == b && isPrefixL as bs

/-- Substring test, embedding Python's `needle in hay` for strings. -/
def containsL (hay needle : List Char) : Bool :=
  match hay with
  | [] => needle.isEmpty
  | _ :: t => isPrefixL needle hay || containsL t needle

/-- Embedding of Python `str.lower()` (the loopback keywords are ASCII, so
ASCII lowering is all the comparison in the source exercises). -/
def lowerL (s : List Char) : List Char := s.map Char.toLower

/-! ## Data model -/

/-- A microphone/loopback endpoint as enumerated by
`soundcard.all_microphones(include_loopback=True)`: its name and the
platform loopback flag (`mic.isloopback`, absent ⇒ `false`). -/
structure Mic where
  name : List Char
  loopbackFlag : Bool
deriving DecidableEq

/-- The `AudioSource` dataclass from the source (volume/mute defaults omitted:
no claim touches them, and the code never sets them). -/
structure AudioSource where
  name : List Char
  process_id : Int
deriving DecidableEq

/-- The two exception kinds the embedded pipeline can surface:
`AudioCaptureError` raised by the module itself, and `ValueError` raised
by numpy (empty-array reduction). -/
inductive CapErr where
  | captureError (msg : String)
  | valueError (msg : String)
deriving DecidableEq

/-! ## Loopback resolution (`_capture_with_loopback`, lines 104–151) -/

/-- The name keywords of `is_loopback` in the source. -/
def loopbackKeywords : List (List Char) :=
  ["loopback".toList, "monitor".toList, "blackhole".toList,
   "soundflower".toList, "multi-output".toList]

/-- Predicate `is_loopback(mic)` from the source: the platform flag, or a keyword
occurring in the lowercased name. -/
def is_loopback (m : Mic) : Bool :=
  m.loopbackFlag || loopbackKeywords.any (fun k => containsL (lowerL m.name) k)

/-- The tie-breaking relation of the first resolution loop:
`default_speaker.name in mic.name or mic.name in default_speaker.name`. -/
def nameMatch (m : Mic) (d : List Char) : Bool :=
  containsL m.name d || containsL d m.name

/-- First loop (lines 121–128): first loopback candidate whose name
matches the default speaker's name. -/
def findMatching (d : List Char) : List Mic → Option Mic
  | [] => none
  | m :: rest =>
    if is_loopback m && nameMatch m d then some m else findMatching d rest

/-- Error text for macOS (`platform.system() == "Darwin"`). -/
def macosHint : String :=
  "No loopback device found on macOS.\nPlease install BlackHole: https://github.com/ExistentialAudio/BlackHole\nThen set up a Multi-Output Device in Audio MIDI Setup."

/-- Error text for Linux. -/
def linuxHint : String :=
  "No loopback device found on Linux.\nMake sure PulseAudio or PipeWire is running with monitor devices enabled."

/-- Error text for every other platform. -/
def genericHint : String := "No loopback device found"

/-- Platform-dependent `AudioCaptureError` message (lines 137–151). -/
def noLoopbackMsg (system : String) : String :=
  if system = "Darwin" then macosHint
  else if system = "Linux" then linuxHint
  else genericHint

/-- The `if default_speaker:` guard around the first loop (line 121):
without a default speaker the first loop does not run. -/
def firstPass (allMics : List Mic) : Option (List Char) → Option Mic
  | none => none
  | some d => findMatching d allMics

/-- Loopback resolution, lines 104–151: prefer a candidate matching the
default speaker's name; otherwise the first candidate in enumeration
order; otherwise fail with a platform-specific hint. -/
def resolveLoopback (allMics : List Mic) (defaultSpeaker : Option (List Char))
    (system : String) : Except CapErr Mic :=
  match firstPass allMics defaultSpeaker with
  | some m => Except.ok m
  | none =>
    match allMics.find? is_loopback with
    | some m => Except.ok m
    | none => Except.error (CapErr.captureError (noLoopbackMsg system))

/-! ## Device enumeration (`get_audio_sources`, lines 45–82) -/

/-- A speaker as returned by the `soundcard` backend: only its name is
consulted. -/
structure Speaker where
  name : List Char
deriving DecidableEq

/-- One run of the audio subsystem as observed by `get_audio_sources`:
whether `sc.default_speaker()` succeeds (and what it returns), the
speakers yielded by `sc.all_speakers()` before any failure, and whether
that enumeration ran to completion.  A failure anywhere inside the `try`
block lands in the `except` branch. -/
structure EnumEnv where
  defaultSpeakerResult : Except Unit (Option Speaker)
  speakersEnumerated : List Speaker
  speakersComplete : Bool

/-- Sanitization `name.encode('ascii', 'replace').decode()`: every non-ASCII character
becomes `?`. -/
def sanitizeName (n : List Char) : List Char :=
  n.map (fun c => if c.toNat ≤ 127 then c else '?')

/-- The synthetic fallback appended in the `except` branch (line 80). -/
def fallbackSource : AudioSource := ⟨"System Audio".toList, 0⟩

/-- Lines 53–63: the default speaker entry, suffixed `" (Default)"`,
`process_id = 0`. -/
def defaultEntry (ds : Option Speaker) : List AudioSource :=
  match ds with
  | none => []
  | some d => [⟨sanitizeName d.name ++ " (Default)".toList, 0⟩]

/-- Lines 66–77: remaining speakers, skipping any whose (raw) name equals
the default's, `process_id = -2`. -/
def otherEntries (ds : Option Speaker) (sps : List Speaker) : List AudioSource :=
  (sps.filter (fun sp =>
    match ds with
    | some d => decide (sp.name ≠ d.name)
    | none => true)).map (fun sp => ⟨sanitizeName sp.name, -2⟩)

/-- Function `get_audio_sources` as a total function of the enumeration
environment: it returns a list in every case — exceptions from the audio
subsystem are caught, and the fallback source is appended to whatever was
accumulated before the failure. -/
def get_audio_sources (env : EnumEnv) : List AudioSource :=
  match env.defaultSpeakerResult with
  | Except.error _ => [fallbackSource]
  | Except.ok ds =>
    let s := defaultEntry ds ++ otherEntries ds env.speakersEnumerated
    if env.speakersComplete then s else s ++ [fallbackSource]

/-! ## Waveform encoder (`_convert_to_wav`, lines 186–216) -/

/-- Truncation toward zero: the mathematical content of numpy's
`astype(np.int16)` cast (before wraparound) and of Python's `int()`:
floor for nonnegative arguments, ceiling for negative ones. -/
def truncQ (q : ℚ) : ℤ := if 0 ≤ q then ⌊q⌋ else ⌈q⌉

/-- Wrap an integer into the `int16` range, the overflow behaviour of
`astype(np.int16)`. -/
def toInt16 (z : ℤ) : ℤ := (z + 32768) % 65536 - 32768

/-- Absolute value `np.abs` on one sample. -/
def absQ (x : ℚ) : ℚ := if x < 0 then -x else x

/-- Binary maximum, the reduction step of `.max()`. -/
def maxQ (a b : ℚ) : ℚ := if a < b then b else a

/-- Clipping `np.clip(x, -1, 1)` on one sample. -/
def clip1 (x : ℚ) : ℚ := if x < -1 then -1 else if 1 < x then 1 else x

/-- Peak `np.abs(arr).max()`: `none` models the `ValueError` numpy raises when
reducing an empty array. -/
def maxAbs : List ℚ → Option ℚ
  | [] => none
  | x :: xs => some (xs.foldl (fun acc y => maxQ acc (absQ y)) (absQ x))

/-- Line 202–203: `audio_data / max_amplitude * 0.9` when
`max_amplitude > 0`, else unchanged. -/
def normalizeStep (audio : List ℚ) (peak : ℚ) : List ℚ :=
  if 0 < peak then audio.map (fun x => x / peak * (9 / 10)) else audio

/-- Lines 202–205: normalization followed by the defensive clip — the
float sequence immediately before quantization. -/
def preQuant (audio : List ℚ) (peak : ℚ) : List ℚ :=
  (normalizeStep audio peak).map clip1

/-- Line 206: `(audio_data * 32767).astype(np.int16)` on one sample. -/
def quantize (x : ℚ) : ℤ := toInt16 (truncQ (x * 32767))

/-- The full int16 sample sequence produced by lines 198–206 from the
flattened data and its peak. -/
def pcmOf (audio : List ℚ) (peak : ℚ) : List ℤ :=
  (preQuant audio peak).map quantize

/-- Little-endian 2-byte encoding of an int16 sample (two's complement),
as `tobytes()` lays it out. -/
def toLE2 (z : ℤ) : List Nat :=
  [((z + 65536) % 65536).toNat % 256, ((z + 65536) % 65536).toNat / 256]

/-- Little-endian 2-byte encoding of an unsigned header field. -/
def le2 (n : Nat) : List Nat := [n % 256, n / 256 % 256]

/-- Little-endian 4-byte encoding of an unsigned header field. -/
def le4 (n : Nat) : List Nat :=
  [n % 256, n / 256 % 256, n / 65536 % 256, n / 16777216 % 256]

/-- Modelled from the spec: the Python `wave` module (stdlib, not part of
this repository) serializes mono 16-bit PCM at the given rate behind "a
canonical RIFF/WAVE-style header: format tag, channel count=1, sample
rate, bits-per-sample=16, byte rate, block align, then raw frame data",
"for the standard WAVE header size of 44 bytes". -/
def wavHeader (sampleRate : Nat) (numSamples : Nat) : List Nat :=
  "RIFF".toList.map Char.toNat ++ le4 (36 + 2 * numSamples) ++
  "WAVE".toList.map Char.toNat ++
  "fmt ".toList.map Char.toNat ++ le4 16 ++
  le2 1 ++ le2 1 ++ le4 sampleRate ++ le4 (sampleRate * 2) ++
  le2 2 ++ le2 16 ++
  "data".toList.map Char.toNat ++ le4 (2 * numSamples)

/-- Serialize the int16 samples to bytes (`tobytes()`). -/
def bytesOfPCM : List ℤ → List Nat
  | [] => []
  | z :: rest => toLE2 z ++ bytesOfPCM rest

/-- The container: header plus frame data (lines 208–216). -/
def wavBytes (sampleRate : Nat) (pcm : List ℤ) : List Nat :=
  wavHeader sampleRate pcm.length ++ bytesOfPCM pcm

/-- Encoder `_convert_to_wav`, lines 186–216, mono path (`channels = 1`, the
constructor default; no claim touches the multi-channel downmix).  The
peak `< 0.001` branch only prints a warning and does not alter the data.
`np.concatenate` of the chunk list is `List.flatten`; reducing an empty
concatenation raises numpy's `ValueError`. -/
def convert_to_wav (sampleRate : Nat) (chunks : List (List ℚ)) :
    Except CapErr (List Nat) :=
  if chunks = [] then
    Except.error (CapErr.captureError "No audio data recorded")
  else
    let audio := chunks.flatten
    match maxAbs audio with
    | none =>
      Except.error (CapErr.valueError
        "zero-size array to reduction operation maximum which has no identity")
    | some peak => Except.ok (wavBytes sampleRate (pcmOf audio peak))

/-- The encoder's int16 samples alone (the pipeline of lines 191–206
without the container framing), for stating numerical claims. -/
def encoderPCM (chunks : List (List ℚ)) : Option (List ℤ) :=
  match maxAbs chunks.flatten with
  | none => none
  | some peak => some (pcmOf chunks.flatten peak)

/-- Claim-side definition, following the spec's words for §4.4 step 7:
"Quantize: `sample_i16 = round(sample_float * 32767)`", i.e. rounding to
the nearest integer — to be compared with the source's truncating
`astype(np.int16)` cast. -/
def specQuantizeRound (x : ℚ) : ℤ := round (x * 32767)

/-! ## Level meter (lines 167–177) -/

/-- Lines 171–174: instantaneous attack, `0.85/0.15` one-pole decay. -/
def updateLevel (previous instant : ℚ) : ℚ :=
  if previous < instant then instant
  else previous * (85 / 100) + instant * (15 / 100)

/-- Level processing of one chunk (lines 167–174): the `len(data) > 0`
guard leaves the stored level unchanged on an empty chunk; otherwise the
instantaneous level is `np.abs(data).max()`. -/
def processChunkLevel (previous : ℚ) (chunk : List ℚ) : ℚ :=
  match maxAbs chunk with
  | none => previous
  | some instant => updateLevel previous instant

/-! ## Capture session state (`AudioCapture.__init__`, `capture_audio`) -/

/-- The mutable fields of an `AudioCapture` instance that the claims
touch. -/
structure CState where
  is_recording : Bool
  recorded_data : List (List ℚ)
  current_level : ℚ
  selected_device : Option (List Char)

/-- Setter `set_selected_device` (lines 40–43): stores the name (the `print` is
I/O only). -/
def set_selected_device (s : CState) (device_name : List Char) : CState :=
  { s with selected_device := some device_name }

/-- Accessor `is_recording` (lines 230–232). -/
def isRecordingOf (s : CState) : Bool := s.is_recording

/-- The loopback resolution performed inside `_capture_with_loopback`
(lines 104–151) for a given session state: the source consults
`sc.default_speaker()` and `platform.system()` only — no field of the
session state, in particular not `_selected_device_name`, occurs in
lines 104–151. -/
def resolveForCapture (_s : CState) (allMics : List Mic)
    (defaultSpeaker : Option (List Char)) (system : String) :
    Except CapErr Mic :=
  resolveLoopback allMics defaultSpeaker system

/-- Method `capture_audio` (lines 84–94): reset the buffer, raise the flag, run
the capture body, wrap any exception in `AudioCaptureError`, and clear
the flag in the `finally` block on both the return path and the raise
path.  The body (`_capture_with_loopback`) is abstracted as an arbitrary
state transformer that either returns container bytes or raises. -/
def capture_audio (body : CState → Except String (List Nat) × CState)
    (s : CState) : Except CapErr (List Nat) × CState :=
  match body { s with recorded_data := [], is_recording := true } with
  | (Except.ok w, s2) => (Except.ok w, { s2 with is_recording := false })
  | (Except.error e, s2) =>
    (Except.error (CapErr.captureError ("Audio capture failed: " ++ e)),
     { s2 with is_recording := false })

/-! ## The capture loop frame plan (lines 156–182) -/

/-- Python `int()` on a nonnegative rational (used at
`int(duration * self.sample_rate)` and `int(self.sample_rate * 0.05)`). -/
def pyInt (q : ℚ) : ℤ := truncQ q

/-- Computation `total_frames = int(duration * self.sample_rate)` (line 156). -/
def totalFramesOf (duration : ℚ) (sample_rate : ℕ) : ℕ :=
  (pyInt (duration * sample_rate)).toNat

/-- Computation `chunk_size = int(self.sample_rate * 0.05)` (line 158). -/
def chunkSizeOf (sample_rate : ℕ) : ℕ :=
  (pyInt ((sample_rate : ℚ) * (5 / 100))).toNat

/-- The sequence of `frames_to_record` values produced by the recording
loop (lines 159–182) when no cancellation occurs:
`frames_to_record = min(chunk_size, total_frames - frames_recorded)`,
looping while `frames_recorded < total_frames`.  The first argument is
fuel bounding the iteration count; `remaining` strictly decreases each
step whenever `chunk_size ≥ 1`, so fuel `total_frames` is enough. -/
def chunkPlan (chunk_size : ℕ) : ℕ → ℕ → List ℕ
  | 0, _ => []
  | _ + 1, 0 => []
  | fuel + 1, remaining + 1 =>
    let f := min chunk_size (remaining + 1)
    f :: chunkPlan chunk_size fuel (remaining + 1 - f)

/-- The chunk sizes of a complete (uncancelled) capture. -/
def captureFramePlan (duration : ℚ) (sample_rate : ℕ) : List ℕ :=
  chunkPlan (chunkSizeOf sample_rate) (totalFramesOf duration sample_rate)
    (totalFramesOf duration sample_rate)

/-- Modelled from the spec: the recorder handle (the external `soundcard`
library, not part of this repository) — "pull one chunk (sized to not
overshoot totalFrames)" returns exactly the requested number of frames;
here with synthetic samples of constant amplitude `amp`. -/
def capturedChunks (amp : ℚ) (duration : ℚ) (sample_rate : ℕ) :
    List (List ℚ) :=
  (captureFramePlan duration sample_rate).map (fun k => List.replicate k amp)

/-! ## String bridge lemmas -/

theorem isPrefixL_iff (n h : List Char) : isPrefixL n h = true ↔ n <+: h := by
  induction n generalizing h with
  | nil => simp [isPrefixL]
  | cons a as ih =>
    cases h with
    | nil => simp [isPrefixL]
    | cons b bs =>
      simp only [isPrefixL, Bool.and_eq_true, beq_iff_eq, ih]
      constructor
      · rintro ⟨rfl, hp⟩
        rcases hp with ⟨t, ht⟩
        exact ⟨t, by rw [List.cons_append, ht]⟩
      · intro hp
        rcases hp with ⟨t, ht⟩
        injection ht with h1 h2
        exact ⟨h1, ⟨t, h2⟩⟩

theorem containsL_iff (hay needle : List Char) :
    containsL hay needle = true ↔ needle <:+: hay := by
  induction hay with
  | nil =>
    simp only [containsL, List.isEmpty_iff]
    constructor
    · rintro rfl; exact List.infix_rfl
    · intro h; exact List.eq_nil_of_infix_nil h
  | cons b bs ih =>
    simp only [containsL, Bool.or_eq_true, ih, isPrefixL_iff]
    constructor
    · rintro (hp | hi)
      · exact List.IsPrefix.isInfix hp
      · exact hi.trans (List.infix_cons List.infix_rfl)
    · intro hi
      rcases List.infix_cons_iff.1 hi with hp | hi'
      · exact Or.inl hp
      · exact Or.inr hi'

/-! ## Bridge lemmas: the `if`-based numpy primitives against Mathlib's
order vocabulary -/

theorem absQ_eq (x : ℚ) : absQ x = |x| := by
  rw [absQ]
  split
  next h => exact (abs_of_neg h).symm
  next h => exact (abs_of_nonneg (le_of_not_lt h)).symm

theorem maxQ_eq (a b : ℚ) : maxQ a b = max a b := by
  rw [maxQ]
  rcases lt_trichotomy a b with h | h | h
  · rw [if_pos h, max_eq_right h.le]
  · rw [if_neg (h ▸ lt_irrefl a), h, max_self]
  · rw [if_neg (asymm h), max_eq_left h.le]

theorem clip1_eq (x : ℚ) : clip1 x = max (-1) (min 1 x) := by
  rw [clip1]
  rcases lt_or_le x (-1) with h | h
  · rw [if_pos h, min_eq_right (h.le.trans (by norm_num)), max_eq_left h.le]
  · rw [if_neg (not_lt_of_le h)]
    rcases lt_or_le 1 x with h1 | h1
    · rw [if_pos h1, min_eq_left h1.le, max_eq_right (by norm_num)]
    · rw [if_neg (not_lt_of_le h1), min_eq_right h1, max_eq_right h]

theorem maxAbs_eq (l : List ℚ) : maxAbs l = (l.map (fun x => |x|)).max? := by
  cases l with
  | nil => rfl
  | cons x xs =>
    have hm : maxQ = fun (a b : ℚ) => max a b := by
      funext a b
      rw [maxQ_eq]
    simp only [maxAbs, hm, absQ_eq, List.map_cons, List.max?_cons', List.foldl_map]

theorem maxAbs_eq_none_iff {l : List ℚ} : maxAbs l = none ↔ l = [] := by
  cases l <;> simp [maxAbs]

theorem maxAbs_eq_some_iff {l : List ℚ} {p : ℚ} :
    maxAbs l = some p ↔ ((∃ x ∈ l, |x| = p) ∧ ∀ x ∈ l, |x| ≤ p) := by
  haveI : Std.Antisymm ((· : ℚ) ≤ ·) := ⟨fun h h2 => le_antisymm h h2⟩
  rw [maxAbs_eq,
    List.max?_eq_some_iff (fun a => le_refl a) max_choice (fun _ _ _ => max_le_iff)]
  constructor
  · rintro ⟨hmem, hle⟩
    rcases List.mem_map.1 hmem with ⟨x, hx, hxe⟩
    exact ⟨⟨x, hx, hxe⟩, fun y hy => hle _ (List.mem_map_of_mem _ hy)⟩
  · rintro ⟨⟨x, hx, hxe⟩, hle⟩
    refine ⟨hxe ▸ List.mem_map_of_mem _ hx, ?_⟩
    intro b hb
    rcases List.mem_map.1 hb with ⟨y, hy, hye⟩
    exact hye ▸ hle y hy

theorem maxAbs_nonneg {l : List ℚ} {p : ℚ} (h : maxAbs l = some p) : 0 ≤ p := by
  rcases (maxAbs_eq_some_iff.1 h).1 with ⟨x, -, hx⟩
  exact hx ▸ abs_nonneg x

/-! ## Quantization bounds -/

theorem truncQ_abs_le {q : ℚ} {n : ℤ} (h : |q| ≤ (n : ℚ)) :
    -n ≤ truncQ q ∧ truncQ q ≤ n := by
  rcases abs_le.1 h with ⟨h1, h2⟩
  rw [truncQ]
  split
  · constructor
    · exact Int.le_floor.2 (by push_cast; exact h1)
    · calc ⌊q⌋ ≤ ⌊(n : ℚ)⌋ := Int.floor_le_floor h2
        _ = n := Int.floor_intCast n
  · constructor
    · have hc : ((-n : ℤ) : ℚ) ≤ q := by exact_mod_cast h1
      calc -n = ⌈((-n : ℤ) : ℚ)⌉ := (Int.ceil_intCast _).symm
        _ ≤ ⌈q⌉ := Int.ceil_le_ceil hc
    · exact Int.ceil_le.2 (by exact_mod_cast h2)

theorem toInt16_eq_self {z : ℤ} (h1 : -32768 ≤ z) (h2 : z ≤ 32767) :
    toInt16 z = z := by
  rw [toInt16, Int.emod_eq_of_lt (by omega) (by omega)]
  omega

theorem abs_clip1_le (x : ℚ) : |clip1 x| ≤ 1 := by
  rw [clip1_eq, abs_le]
  exact ⟨le_max_left _ _, max_le (by norm_num) (min_le_left _ _)⟩

theorem clip1_of_abs_le {x : ℚ} (h : |x| ≤ 1) : clip1 x = x := by
  rcases abs_le.1 h with ⟨h1, h2⟩
  rw [clip1_eq, min_eq_right h2, max_eq_right h1]

theorem quantize_of_abs_le {x : ℚ} (h : |x| ≤ 1) :
    quantize x = truncQ (x * 32767) ∧
      -32767 ≤ truncQ (x * 32767) ∧ truncQ (x * 32767) ≤ 32767 := by
  have habs : |x * 32767| ≤ ((32767 : ℤ) : ℚ) := by
    rw [abs_mul, abs_of_nonneg (by norm_num : (0:ℚ) ≤ 32767)]
    calc |x| * 32767 ≤ 1 * 32767 := by
          exact mul_le_mul_of_nonneg_right h (by norm_num)
      _ = ((32767 : ℤ) : ℚ) := by norm_num
  rcases truncQ_abs_le habs with ⟨hlo, hhi⟩
  exact ⟨toInt16_eq_self (by omega) hhi, hlo, hhi⟩

/-- When the peak is positive, the pre-quantization sequence is the
normalized-and-clipped image of every sample. -/
theorem preQuant_of_pos {audio : List ℚ} {p : ℚ} (hp : 0 < p) :
    preQuant audio p = audio.map (fun x => clip1 (x / p * (9 / 10))) := by
  rw [preQuant, normalizeStep, if_pos hp, List.map_map]
  rfl

/-! ## Resolution helper lemmas -/

theorem findMatching_some {d : List Char} {mics : List Mic} {m : Mic}
    (h : findMatching d mics = some m) :
    is_loopback m = true ∧ nameMatch m d = true := by
  induction mics with
  | nil => exact absurd h (by simp [findMatching])
  | cons a rest ih =>
    rw [findMatching] at h
    split at h
    · cases h
      next hc =>
        simp only [Bool.and_eq_true] at hc
        exact hc
    · exact ih h

theorem findMatching_isSome_of {d : List Char} {mics : List Mic} {m : Mic}
    (hm : m ∈ mics) (h1 : is_loopback m = true) (h2 : nameMatch m d = true) :
    ∃ m2, findMatching d mics = some m2 := by
  induction mics with
  | nil => exact absurd hm (List.not_mem_nil m)
  | cons a rest ih =>
    rw [findMatching]
    split
    · exact ⟨a, rfl⟩
    next hc =>
      rcases List.mem_cons.1 hm with rfl | hm'
      · exact absurd (by rw [h1, h2]; rfl) hc
      · exact ih hm'

theorem findMatching_eq_none_of {d : List Char} {mics : List Mic}
    (h : ∀ m ∈ mics, is_loopback m = true → nameMatch m d = false) :
    findMatching d mics = none := by
  induction mics with
  | nil => rfl
  | cons a rest ih =>
    rw [findMatching, if_neg, ih]
    · intro m hm
      exact h m (List.mem_cons_of_mem a hm)
    · intro hc
      simp only [Bool.and_eq_true] at hc
      rcases hc with ⟨h1, h2⟩
      rw [h a (List.mem_cons_self a rest) h1] at h2
      exact Bool.false_ne_true h2

/-! ## Serialization and frame-plan lemmas -/

theorem bytesOfPCM_length (pcm : List ℤ) :
    (bytesOfPCM pcm).length = 2 * pcm.length := by
  induction pcm with
  | nil => rfl
  | cons z rest ih =>
    rw [bytesOfPCM, List.length_append, ih, List.length_cons]
    rw [show (toLE2 z).length = 2 from rfl]
    ring

theorem wavHeader_length (sampleRate numSamples : ℕ) :
    (wavHeader sampleRate numSamples).length = 44 := rfl

theorem wavBytes_length (sampleRate : ℕ) (pcm : List ℤ) :
    (wavBytes sampleRate pcm).length = 44 + 2 * pcm.length := by
  rw [wavBytes, List.length_append, wavHeader_length, bytesOfPCM_length]

theorem pcmOf_length (audio : List ℚ) (peak : ℚ) :
    (pcmOf audio peak).length = audio.length := by
  rw [pcmOf, preQuant, List.length_map, List.length_map, normalizeStep]
  split <;> simp

theorem flatten_map_replicate (l : List ℕ) (a : ℚ) :
    (l.map (fun k => List.replicate k a)).flatten = List.replicate l.sum a := by
  induction l with
  | nil => rfl
  | cons k rest ih =>
    rw [List.map_cons, List.flatten_cons, ih, List.sum_cons, List.replicate_add]

theorem maxAbs_replicate {n : ℕ} (hn : n ≠ 0) (a : ℚ) :
    maxAbs (List.replicate n a) = some |a| := by
  rw [maxAbs_eq_some_iff]
  refine ⟨⟨a, List.mem_replicate.2 ⟨hn, rfl⟩, rfl⟩, ?_⟩
  intro x hx
  rw [(List.mem_replicate.1 hx).2]

/-! ## Encoder success lemma -/

theorem convert_ok_of_flatten_ne_nil (rate : ℕ) {chunks : List (List ℚ)}
    (h : chunks.flatten ≠ []) :
    ∃ p, maxAbs chunks.flatten = some p ∧
      convert_to_wav rate chunks =
        Except.ok (wavBytes rate (pcmOf chunks.flatten p)) := by
  have hchunks : chunks ≠ [] := by
    intro hc
    exact h (by rw [hc]; rfl)
  have hm : maxAbs chunks.flatten ≠ none := by
    rw [Ne, maxAbs_eq_none_iff]
    exact h
  rcases Option.ne_none_iff_exists'.1 hm with ⟨p, hp⟩
  refine ⟨p, hp, ?_⟩
  rw [convert_to_wav, if_neg hchunks]
  simp only [hp]

/-! ## Enumeration lemmas -/

theorem default_entry_ne_fallback (l : List Char) :
    l ++ " (Default)".toList ≠ "System Audio".toList := by
  intro h
  have hlen := congrArg List.length h
  rw [List.length_append,
    show (" (Default)".toList).length = 10 from rfl,
    show ("System Audio".toList).length = 12 from rfl] at hlen
  have hl2 : l.length = 2 := by omega
  have hdrop := congrArg (List.drop l.length) h
  rw [List.drop_left, hl2] at hdrop
  exact absurd hdrop (by decide)

theorem fallback_not_mem_defaultEntry (ds : Option Speaker) :
    fallbackSource ∉ defaultEntry ds := by
  cases ds with
  | none => exact List.not_mem_nil _
  | some d =>
    intro hmem
    rcases List.mem_singleton.1 hmem with h
    exact default_entry_ne_fallback (sanitizeName d.name) (congrArg AudioSource.name h).symm

theorem fallback_not_mem_otherEntries (ds : Option Speaker) (sps : List Speaker) :
    fallbackSource ∉ otherEntries ds sps := by
  intro hmem
  rcases List.mem_map.1 hmem with ⟨sp, -, hsp⟩
  have := congrArg AudioSource.process_id hsp
  simp only [fallbackSource] at this
  omega

/-- Every quantized sample of the encoder lies in the signed 16-bit
range, because the clip step bounds the float by 1 in absolute value. -/
theorem pcmOf_mem_bounds {audio : List ℚ} {p : ℚ} {z : ℤ}
    (hz : z ∈ pcmOf audio p) : -32768 ≤ z ∧ z ≤ 32767 := by
  rcases List.mem_map.1 hz with ⟨y, hy, rfl⟩
  rcases List.mem_map.1 hy with ⟨w, -, rfl⟩
  rcases quantize_of_abs_le (abs_clip1_le w) with ⟨he, h1, h2⟩
  rw [he]
  exact ⟨by omega, h2⟩

/-! ## Claim theorems -/

/-- Claim C10: After every call to `capture_audio` terminates, whether it
returns a waveform buffer or raises a capture error, the session's
recording flag is `False` (`is_recording()` returns `False`): the
`finally` block clears it on both exits. -/
theorem capture_audio_clears_recording_flag
    (body : CState → Except String (List Nat) × CState) (s : CState) :
    isRecordingOf (capture_audio body s).2 = false ∧
    ((∃ w, (capture_audio body s).1 = Except.ok w) ∨
     (∃ e, (capture_audio body s).1 = Except.error e)) := by
  unfold capture_audio isRecordingOf
  rcases hb : body { s with recorded_data := [], is_recording := true } with ⟨r, s2⟩
  cases r with
  | ok w => exact ⟨rfl, Or.inl ⟨w, rfl⟩⟩
  | error e => exact ⟨rfl, Or.inr ⟨_, rfl⟩⟩

/-- Claim C6: For every nonempty chunk processed by the level meter, with
`instant` the maximum absolute sample value of the chunk and `previous`
the stored level: if `instant > previous` the updated level is `instant`
(instantaneous attack), else it is `previous * 0.85 + instant * 0.15`
(one-pole decay; ratio `0.85` when the input is zero). -/
theorem level_meter_attack_and_decay (previous : ℚ) (chunk : List ℚ)
    (h : chunk ≠ []) :
    ∃ instant, maxAbs chunk = some instant ∧
      (∃ x ∈ chunk, |x| = instant) ∧ (∀ x ∈ chunk, |x| ≤ instant) ∧
      (previous < instant → processChunkLevel previous chunk = instant) ∧
      (¬previous < instant →
        processChunkLevel previous chunk =
          previous * (85 / 100) + instant * (15 / 100)) := by
  have hm : maxAbs chunk ≠ none := by
    rw [Ne, maxAbs_eq_none_iff]
    exact h
  rcases Option.ne_none_iff_exists'.1 hm with ⟨instant, hi⟩
  rcases maxAbs_eq_some_iff.1 hi with ⟨hex, hub⟩
  refine ⟨instant, hi, hex, hub, ?_, ?_⟩
  · intro hlt
    simp only [processChunkLevel, hi, updateLevel, if_pos hlt]
  · intro hnlt
    simp only [processChunkLevel, hi, updateLevel, if_neg hnlt]

/-- Witness for C6 at `previous = 1/2`, `chunk = [1/4, -3/4]`. -/
theorem level_meter_attack_and_decay_witness :
    ∃ instant, maxAbs [(1 : ℚ)/4, -3/4] = some instant ∧
      (∃ x ∈ [(1 : ℚ)/4, -3/4], |x| = instant) ∧
      (∀ x ∈ [(1 : ℚ)/4, -3/4], |x| ≤ instant) ∧
      ((1 : ℚ)/2 < instant → processChunkLevel (1/2) [(1 : ℚ)/4, -3/4] = instant) ∧
      (¬(1 : ℚ)/2 < instant →
        processChunkLevel (1/2) [(1 : ℚ)/4, -3/4] =
          (1 : ℚ)/2 * (85 / 100) + instant * (15 / 100)) :=
  level_meter_attack_and_decay (1/2) [(1 : ℚ)/4, -3/4] (List.cons_ne_nil _ _)

/-- Claim C3: For every chunk sequence whose samples are not all below the
silence threshold `0.001`, the encoder's normalization (scale by
`0.9 / peak`, then clip) yields a pre-quantization sequence whose maximum
absolute value is exactly `0.9` (exact in ℚ, hence within any epsilon),
and every quantized sample lies in `[-32768, 32767]`. -/
theorem encoder_normalizes_peak_to_ninety_percent
    (chunks : List (List ℚ))
    (h : ∃ x ∈ chunks.flatten, ¬(|x| < 1 / 1000)) :
    ∃ p pcm,
      maxAbs chunks.flatten = some p ∧
      encoderPCM chunks = some pcm ∧
      maxAbs (preQuant chunks.flatten p) = some (9 / 10) ∧
      ∀ z ∈ pcm, -32768 ≤ z ∧ z ≤ 32767 := by
  rcases h with ⟨x0, hx0mem, hx0⟩
  have hx0' : 1 / 1000 ≤ |x0| := le_of_not_lt hx0
  have hne : chunks.flatten ≠ [] := List.ne_nil_of_mem hx0mem
  have hm : maxAbs chunks.flatten ≠ none := by
    rw [Ne, maxAbs_eq_none_iff]
    exact hne
  rcases Option.ne_none_iff_exists'.1 hm with ⟨p, hp⟩
  rcases maxAbs_eq_some_iff.1 hp with ⟨⟨xm, hxmmem, hxm⟩, hub⟩
  have hppos : 0 < p :=
    lt_of_lt_of_le (by norm_num) (le_trans hx0' (hub x0 hx0mem))
  have habs : ∀ x ∈ chunks.flatten, |x / p * (9 / 10)| = |x| / p * (9 / 10) := by
    intro x _
    rw [abs_mul, abs_div, abs_of_pos hppos,
      abs_of_nonneg (by norm_num : (0:ℚ) ≤ 9 / 10)]
  have hle1 : ∀ x ∈ chunks.flatten, |x / p * (9 / 10)| ≤ 9 / 10 := by
    intro x hx
    rw [habs x hx]
    calc |x| / p * (9 / 10) ≤ 1 * (9 / 10) := by
          refine mul_le_mul_of_nonneg_right ?_ (by norm_num)
          rw [div_le_one hppos]
          exact hub x hx
      _ = 9 / 10 := one_mul _
  refine ⟨p, pcmOf chunks.flatten p, hp, ?_, ?_, ?_⟩
  · rw [encoderPCM]
    simp only [hp]
  · rw [preQuant_of_pos hppos, maxAbs_eq_some_iff]
    constructor
    · refine ⟨clip1 (xm / p * (9 / 10)), List.mem_map_of_mem _ hxmmem, ?_⟩
      rw [clip1_of_abs_le (le_trans (hle1 xm hxmmem) (by norm_num)),
        habs xm hxmmem, hxm, div_self (ne_of_gt hppos), one_mul]
    · intro y hy
      rcases List.mem_map.1 hy with ⟨x, hx, rfl⟩
      rw [clip1_of_abs_le (le_trans (hle1 x hx) (by norm_num))]
      exact hle1 x hx
  · intro z hz
    exact pcmOf_mem_bounds hz

/-- Witness for C3 at `chunks = [[1/2]]`. -/
theorem encoder_normalizes_peak_to_ninety_percent_witness :
    ∃ p pcm,
      maxAbs [[(1 : ℚ)/2]].flatten = some p ∧
      encoderPCM [[(1 : ℚ)/2]] = some pcm ∧
      maxAbs (preQuant [[(1 : ℚ)/2]].flatten p) = some (9 / 10) ∧
      ∀ z ∈ pcm, -32768 ≤ z ∧ z ≤ 32767 :=
  encoder_normalizes_peak_to_ninety_percent [[(1 : ℚ)/2]]
    ⟨1/2, by simp, by rw [abs_of_pos (by norm_num : (0:ℚ) < 1/2)]; norm_num⟩

/-- Claim C4, counterexample: `[[]]` is a non-empty chunk sequence all of
whose samples (vacuously) are zero, yet the encoder does not return a
container: `np.abs` of the empty concatenation has no maximum and numpy
raises `ValueError` before the peak test is reached. -/
theorem encoder_silent_input_cex :
    (([([] : List ℚ)] : List (List ℚ)) ≠ []) ∧
    (∀ x ∈ ([([] : List ℚ)] : List (List ℚ)).flatten, x = 0) ∧
    ∀ bytes, convert_to_wav 16000 [([] : List ℚ)] ≠ Except.ok bytes := by
  refine ⟨by simp, by simp, ?_⟩
  intro bytes h
  rw [show convert_to_wav 16000 [([] : List ℚ)] =
      Except.error (CapErr.valueError
        "zero-size array to reduction operation maximum which has no identity")
    from rfl] at h
  exact Except.noConfusion h

/-- Claim C4, amended: For every chunk sequence containing at least one
sample, all of them zero: the computed peak is `0`, the normalization
step is skipped (it leaves the data unchanged when the peak is not
positive), the encoder returns a container without error and without
dividing by zero, and every output sample is zero. -/
theorem encoder_silent_input_no_error
    (rate : ℕ) (chunks : List (List ℚ))
    (h0 : chunks.flatten ≠ []) (hz : ∀ x ∈ chunks.flatten, x = 0) :
    maxAbs chunks.flatten = some 0 ∧
    normalizeStep chunks.flatten 0 = chunks.flatten ∧
    encoderPCM chunks = some (List.replicate chunks.flatten.length 0) ∧
    ∃ bytes, convert_to_wav rate chunks = Except.ok bytes := by
  rcases List.exists_mem_of_ne_nil chunks.flatten h0 with ⟨x0, hx0⟩
  have hmax : maxAbs chunks.flatten = some 0 := by
    rw [maxAbs_eq_some_iff]
    refine ⟨⟨x0, hx0, by rw [hz x0 hx0]; exact abs_zero⟩, ?_⟩
    intro x hx
    rw [hz x hx, abs_zero]
  have hnorm : normalizeStep chunks.flatten 0 = chunks.flatten := by
    rw [normalizeStep, if_neg (lt_irrefl 0)]
  refine ⟨hmax, hnorm, ?_, ?_⟩
  · rw [encoderPCM]
    simp only [hmax]
    congr 1
    rw [List.eq_replicate_iff]
    refine ⟨pcmOf_length _ _, ?_⟩
    intro z hz2
    rcases List.mem_map.1 hz2 with ⟨y, hy, rfl⟩
    rcases List.mem_map.1 hy with ⟨w, hw, rfl⟩
    rw [hnorm] at hw
    rw [hz w hw, clip1_of_abs_le (by rw [abs_zero]; norm_num)]
    rw [show quantize 0 = toInt16 (truncQ (0 * 32767)) from rfl, zero_mul,
      show truncQ 0 = 0 by rw [truncQ, if_pos le_rfl]; exact Int.floor_zero]
    rfl
  · rcases convert_ok_of_flatten_ne_nil rate h0 with ⟨p, -, hok⟩
    exact ⟨_, hok⟩

/-- Witness for the amended C4 at `chunks = [[0]]`. -/
theorem encoder_silent_input_no_error_witness :
    maxAbs [[(0 : ℚ)]].flatten = some 0 ∧
    normalizeStep [[(0 : ℚ)]].flatten 0 = [[(0 : ℚ)]].flatten ∧
    encoderPCM [[(0 : ℚ)]] = some (List.replicate [[(0 : ℚ)]].flatten.length 0) ∧
    ∃ bytes, convert_to_wav 16000 [[(0 : ℚ)]] = Except.ok bytes :=
  encoder_silent_input_no_error 16000 [[(0 : ℚ)]] (by simp) (by simp)

/-- Claim C5, counterexample: `[[], []]` is a non-empty chunk list for which
the encoder raises (numpy's empty-reduction `ValueError`, surfaced to the
caller) instead of producing a waveform container, refuting "every
non-empty chunk list produces a waveform container". -/
theorem encoder_error_conditions_cex :
    (([([] : List ℚ), []] : List (List ℚ)) ≠ []) ∧
    convert_to_wav 16000 [([] : List ℚ), []] =
      Except.error (CapErr.valueError
        "zero-size array to reduction operation maximum which has no identity") ∧
    ∀ bytes, convert_to_wav 16000 [([] : List ℚ), []] ≠ Except.ok bytes := by
  refine ⟨by simp, rfl, ?_⟩
  intro bytes h
  rw [show convert_to_wav 16000 [([] : List ℚ), []] =
      Except.error (CapErr.valueError
        "zero-size array to reduction operation maximum which has no identity")
    from rfl] at h
  exact Except.noConfusion h

/-- Claim C5, amended: The encoder raises `AudioCaptureError("No audio data
recorded")` exactly when the chunk list is empty; every chunk list with
at least one sample produces a waveform container; a non-empty chunk list
with zero total samples instead raises numpy's empty-reduction error. -/
theorem encoder_error_conditions (rate : ℕ) (chunks : List (List ℚ)) :
    (convert_to_wav rate chunks =
        Except.error (CapErr.captureError "No audio data recorded") ↔
      chunks = []) ∧
    (chunks.flatten ≠ [] →
      ∃ bytes, convert_to_wav rate chunks = Except.ok bytes) ∧
    (chunks ≠ [] → chunks.flatten = [] →
      convert_to_wav rate chunks =
        Except.error (CapErr.valueError
          "zero-size array to reduction operation maximum which has no identity")) := by
  refine ⟨⟨?_, ?_⟩, ?_, ?_⟩
  · intro h
    by_contra hne
    rcases em (chunks.flatten = []) with hf | hf
    · rw [convert_to_wav, if_neg hne] at h
      simp only [maxAbs_eq_none_iff.2 hf] at h
      simp at h
    · rcases convert_ok_of_flatten_ne_nil rate hf with ⟨p, -, hok⟩
      rw [hok] at h
      exact Except.noConfusion h
  · intro h
    rw [h]
    rfl
  · intro h
    rcases convert_ok_of_flatten_ne_nil rate h with ⟨p, -, hok⟩
    exact ⟨_, hok⟩
  · intro hne hf
    rw [convert_to_wav, if_neg hne]
    simp only [maxAbs_eq_none_iff.2 hf]

/-- Witness for the amended C5 at `chunks = [[1]]`. -/
theorem encoder_error_conditions_witness :
    ∃ bytes, convert_to_wav 16000 [[(1 : ℚ)]] = Except.ok bytes :=
  (encoder_error_conditions 16000 [[(1 : ℚ)]]).2.1 (by simp)

/-- Claim C1, counterexample: At chunks `[[1, 3/4]]` the peak is `1`, the
pre-quantization sequence is `[0.9, 0.675]`, and the encoder emits
`[29490, 22117]` (`0.675 * 32767 = 22117.725` truncated toward zero),
whereas round-to-nearest gives `[29490, 22118]` — so the encoder does not
quantize by `round(sample * 32767)`. -/
theorem encoder_quantization_rounding_cex :
    maxAbs ([[(1 : ℚ), 3/4]].flatten) = some 1 ∧
    encoderPCM [[(1 : ℚ), 3/4]] = some [29490, 22117] ∧
    (preQuant ([[(1 : ℚ), 3/4]].flatten) 1).map specQuantizeRound =
      [29490, 22118] ∧
    encoderPCM [[(1 : ℚ), 3/4]] ≠
      some ((preQuant ([[(1 : ℚ), 3/4]].flatten) 1).map specQuantizeRound) := by
  have hflat : ([[(1 : ℚ), 3/4]].flatten) = [(1 : ℚ), 3/4] := rfl
  have ha1 : absQ 1 = 1 := by rw [absQ, if_neg (by norm_num)]
  have ha2 : absQ (3/4 : ℚ) = 3/4 := by rw [absQ, if_neg (by norm_num)]
  have hmq : maxQ 1 (3/4 : ℚ) = 1 := by rw [maxQ, if_neg (by norm_num)]
  have hmax : maxAbs [(1 : ℚ), 3/4] = some 1 := by
    simp only [maxAbs, List.foldl_cons, List.foldl_nil, ha1, ha2, hmq]
  have hpre : preQuant [(1 : ℚ), 3/4] 1 = [(9 : ℚ)/10, 27/40] := by
    rw [preQuant_of_pos one_pos, List.map_cons, List.map_cons, List.map_nil,
      show (1 : ℚ)/1*(9/10) = 9/10 by norm_num,
      show (3 : ℚ)/4/1*(9/10) = 27/40 by norm_num,
      clip1_of_abs_le (by rw [abs_of_nonneg (by norm_num : (0:ℚ) ≤ 9/10)]; norm_num),
      clip1_of_abs_le (by rw [abs_of_nonneg (by norm_num : (0:ℚ) ≤ 27/40)]; norm_num)]
  have hq1 : quantize ((9 : ℚ)/10) = 29490 := by
    rw [quantize, truncQ, if_pos (by norm_num : (0:ℚ) ≤ 9/10*32767),
      show ⌊(9 : ℚ)/10*32767⌋ = 29490 by norm_num]
    decide
  have hq2 : quantize ((27 : ℚ)/40) = 22117 := by
    rw [quantize, truncQ, if_pos (by norm_num : (0:ℚ) ≤ 27/40*32767),
      show ⌊(27 : ℚ)/40*32767⌋ = 22117 by norm_num]
    decide
  have hE : encoderPCM [[(1 : ℚ), 3/4]] = some [29490, 22117] := by
    rw [encoderPCM]
    simp only [hflat, hmax]
    rw [pcmOf, hpre, List.map_cons, List.map_cons, List.map_nil, hq1, hq2]
  have hR : (preQuant ([[(1 : ℚ), 3/4]].flatten) 1).map specQuantizeRound =
      [29490, 22118] := by
    rw [hflat, hpre, List.map_cons, List.map_cons, List.map_nil,
      show specQuantizeRound ((9 : ℚ)/10) = 29490 by
        rw [specQuantizeRound]; norm_num [round_eq],
      show specQuantizeRound ((27 : ℚ)/40) = 22118 by
        rw [specQuantizeRound]; norm_num [round_eq]]
  refine ⟨hflat ▸ hmax, hE, hR, ?_⟩
  rw [hE, hR]
  decide

/-- Claim C1, amended: The encoder quantizes each clipped float sample by
truncation toward zero — `sample_i16 = trunc(sample_float * 32767)` as
performed by `astype(np.int16)` — and the int16 cast never wraps, because
every clipped sample is bounded by 1 in absolute value. -/
theorem encoder_quantizes_by_truncation
    (chunks : List (List ℚ)) (p : ℚ)
    (h : maxAbs chunks.flatten = some p) :
    encoderPCM chunks =
      some ((preQuant chunks.flatten p).map (fun x => truncQ (x * 32767))) := by
  rw [encoderPCM]
  simp only [h]
  congr 1
  rw [pcmOf]
  apply List.map_congr_left
  intro y hy
  rcases List.mem_map.1 hy with ⟨w, -, rfl⟩
  exact (quantize_of_abs_le (abs_clip1_le w)).1

/-- Witness for the amended C1 at `chunks = [[1/2]]`, peak `1/2`. -/
theorem encoder_quantizes_by_truncation_witness :
    encoderPCM [[(1 : ℚ)/2]] =
      some ((preQuant [[(1 : ℚ)/2]].flatten (1/2)).map
        (fun x => truncQ (x * 32767))) :=
  encoder_quantizes_by_truncation [[(1 : ℚ)/2]] (1/2)
    (by rw [show ([[(1 : ℚ)/2]].flatten) = [(1 : ℚ)/2] from rfl,
          show maxAbs [(1 : ℚ)/2] = some (absQ (1/2)) from rfl, absQ,
          if_neg (by norm_num)])

/-- Claim C2, counterexample: with the caller-selected device name
`"Alpha"` stored in the session, the system default speaker `"Beta"`, and
candidates `["Alpha Monitor", "Beta Monitor"]`, capture resolves to
`"Beta Monitor"` — a device with no substring relation to the preferred
`"Alpha"` — even though the candidate `"Alpha Monitor"` both is a
loopback candidate and matches `"Alpha"`.  The preference set via
`set_selected_device` therefore does not affect loopback tie-breaking. -/
theorem loopback_ignores_selected_device_cex :
    resolveForCapture ⟨false, [], 0, some "Alpha".toList⟩
        [⟨"Alpha Monitor".toList, false⟩, ⟨"Beta Monitor".toList, false⟩]
        (some "Beta".toList) "Linux" =
      Except.ok ⟨"Beta Monitor".toList, false⟩ ∧
    is_loopback ⟨"Alpha Monitor".toList, false⟩ = true ∧
    nameMatch ⟨"Alpha Monitor".toList, false⟩ "Alpha".toList = true ∧
    nameMatch ⟨"Beta Monitor".toList, false⟩ "Alpha".toList = false :=
  ⟨rfl, rfl, rfl, rfl⟩

/-- Claim C2, amended: the device name stored by `set_selected_device`
has no effect on loopback resolution during capture; the tie-breaking
preference is applied to the system default speaker's name instead:
whenever some loopback candidate's name has the substring relation with
the default speaker's name, the resolved device is such a candidate. -/
theorem loopback_resolution_ignores_selected_device
    (st : CState) (name : List Char) (allMics : List Mic)
    (ds : Option (List Char)) (system : String) :
    resolveForCapture (set_selected_device st name) allMics ds system =
      resolveForCapture st allMics ds system ∧
    (∀ d, ds = some d →
      (∃ m ∈ allMics, is_loopback m = true ∧ nameMatch m d = true) →
      ∃ m, resolveForCapture st allMics ds system = Except.ok m ∧
        is_loopback m = true ∧ nameMatch m d = true) := by
  refine ⟨rfl, ?_⟩
  rintro d rfl ⟨m0, hm0, h1, h2⟩
  rcases findMatching_isSome_of hm0 h1 h2 with ⟨m2, hm2⟩
  rcases findMatching_some hm2 with ⟨hl2, hn2⟩
  refine ⟨m2, ?_, hl2, hn2⟩
  rw [resolveForCapture, resolveLoopback.eq_def,
    show firstPass allMics (some d) = some m2 from hm2]

/-- Witness for the amended C2: with default speaker `"Speakers"` and the
single candidate `"Speakers Monitor"`, resolution returns a matching
candidate regardless of the stored selected-device name. -/
theorem loopback_resolution_ignores_selected_device_witness :
    ∃ m, resolveForCapture ⟨false, [], 0, some "Alpha".toList⟩
        [⟨"Speakers Monitor".toList, false⟩]
        (some "Speakers".toList) "Linux" = Except.ok m ∧
      is_loopback m = true ∧ nameMatch m "Speakers".toList = true :=
  (loopback_resolution_ignores_selected_device
      ⟨false, [], 0, some "Alpha".toList⟩ "Alpha".toList
      [⟨"Speakers Monitor".toList, false⟩] (some "Speakers".toList)
      "Linux").2
    "Speakers".toList rfl
    ⟨⟨"Speakers Monitor".toList, false⟩, List.mem_singleton.2 rfl, rfl, rfl⟩

/-- Claim C7: a device is a loopback candidate iff its platform flag is
set or its lowercased name contains one of the five keywords; when no
candidate matches the default speaker's name (or there is no default
speaker), the resolved device is exactly the first candidate in
enumeration order; and when there is no candidate at all, resolution
fails with an `AudioCaptureError` whose message is the platform-specific
remediation hint, rather than crashing. -/
theorem loopback_classification_and_fallback
    (allMics : List Mic) (ds : Option (List Char)) (system : String) :
    (∀ m : Mic, is_loopback m = true ↔
      (m.loopbackFlag = true ∨ ∃ k ∈ loopbackKeywords, k <:+: lowerL m.name)) ∧
    ((∀ d, ds = some d → ∀ m ∈ allMics, is_loopback m = true → nameMatch m d = false) →
      ∀ m, (resolveLoopback allMics ds system = Except.ok m ↔
        allMics.find? is_loopback = some m)) ∧
    ((∀ m ∈ allMics, is_loopback m = false) →
      resolveLoopback allMics ds system =
        Except.error (CapErr.captureError (noLoopbackMsg system)) ∧
      (system = "Darwin" → noLoopbackMsg system = macosHint) ∧
      (system = "Linux" → noLoopbackMsg system = linuxHint) ∧
      (system ≠ "Darwin" → system ≠ "Linux" → noLoopbackMsg system = genericHint)) := by
  refine ⟨?_, ?_, ?_⟩
  · intro m
    simp only [is_loopback, Bool.or_eq_true, List.any_eq_true, containsL_iff]
  · intro H m
    have hfirst : firstPass allMics ds = none := by
      cases ds with
      | none => rfl
      | some d => exact findMatching_eq_none_of (fun m2 hm2 hl2 => H d rfl m2 hm2 hl2)
    rw [resolveLoopback.eq_def, hfirst]
    cases hf : allMics.find? is_loopback with
    | some m2 => simp
    | none => simp
  · intro H
    have hfirst : firstPass allMics ds = none := by
      cases ds with
      | none => rfl
      | some d =>
        exact findMatching_eq_none_of
          (fun m2 hm2 hl2 => absurd (H m2 hm2 ▸ hl2) Bool.false_ne_true)
    have hfind : allMics.find? is_loopback = none := by
      rw [List.find?_eq_none]
      intro m hm
      rw [H m hm]
      exact Bool.false_ne_true
    refine ⟨by rw [resolveLoopback.eq_def, hfirst, hfind], ?_, ?_, ?_⟩
    · intro hsys
      rw [noLoopbackMsg, if_pos hsys]
    · intro hsys
      rw [noLoopbackMsg, if_neg (by rw [hsys]; decide), if_pos hsys]
    · intro h1 h2
      rw [noLoopbackMsg, if_neg h1, if_neg h2]

/-- Witness for C7: no candidate matches the default `"Speakers"`, so the
first loopback candidate in enumeration order, `"hdmi monitor"`, is
resolved. -/
theorem loopback_classification_and_fallback_witness :
    resolveLoopback [⟨"usb mic".toList, false⟩, ⟨"hdmi monitor".toList, false⟩]
        (some "Speakers".toList) "Windows" =
      Except.ok ⟨"hdmi monitor".toList, false⟩ :=
  ((loopback_classification_and_fallback
      [⟨"usb mic".toList, false⟩, ⟨"hdmi monitor".toList, false⟩]
      (some "Speakers".toList) "Windows").2.1
    (by
      intro d hd m hm hl
      injection hd with hd2
      subst hd2
      rcases List.mem_cons.1 hm with rfl | hm2
      · exact absurd hl (by decide)
      · rcases List.mem_cons.1 hm2 with rfl | hm3
        · rfl
        · exact absurd hm3 (List.not_mem_nil _))
    ⟨"hdmi monitor".toList, false⟩).mpr rfl

/-- Claim C8: device enumeration never raises to the caller — the model
is a total function of the enumeration environment — and in every
execution in which querying the audio subsystem fails (either query),
the returned list contains the synthetic fallback source
`"System Audio"` exactly once; on total failure (the very first query)
the result is exactly `[fallback]`. -/
theorem enumeration_never_fatal (env : EnumEnv)
    (h : env.defaultSpeakerResult = Except.error () ∨ env.speakersComplete = false) :
    (get_audio_sources env).count fallbackSource = 1 ∧
    (env.defaultSpeakerResult = Except.error () →
      get_audio_sources env = [fallbackSource]) := by
  cases henv : env.defaultSpeakerResult with
  | error u =>
    rw [get_audio_sources, henv]
    exact ⟨rfl, fun _ => rfl⟩
  | ok ds =>
    have hsc : env.speakersComplete = false := by
      rcases h with h1 | h1
      · rw [henv] at h1
        exact absurd h1 (by simp)
      · exact h1
    rw [get_audio_sources, henv]
    simp only [hsc, Bool.false_eq_true, if_false]
    constructor
    · rw [List.count_append]
      have h0 : (defaultEntry ds ++ otherEntries ds env.speakersEnumerated).count
          fallbackSource = 0 := by
        rw [List.count_eq_zero]
        intro hmem
        rcases List.mem_append.1 hmem with hm | hm
        · exact fallback_not_mem_defaultEntry ds hm
        · exact fallback_not_mem_otherEntries ds _ hm
      rw [h0]
      rfl
    · intro hcontra
      exact absurd hcontra (by simp)

/-- Witness for C8 at the totally failing environment. -/
theorem enumeration_never_fatal_witness :
    (get_audio_sources ⟨Except.error (), [], true⟩).count fallbackSource = 1 ∧
    get_audio_sources ⟨Except.error (), [], true⟩ = [fallbackSource] :=
  ⟨(enumeration_never_fatal ⟨Except.error (), [], true⟩ (Or.inl rfl)).1,
   (enumeration_never_fatal ⟨Except.error (), [], true⟩ (Or.inl rfl)).2 rfl⟩

/-- Claim C9: a completed (uncancelled) capture of 1 second at 16000 Hz
records exactly 16000 frames — the chunk plan (20 chunks of 800 frames)
sums to `duration * sampleRate` with no overshoot — and encoding
synthetic constant-amplitude samples of it yields a container of exactly
`44 + 2 * 16000` bytes: the 44-byte standard WAVE header plus 2 bytes per
mono 16-bit frame. -/
theorem one_second_capture_container_length :
    (captureFramePlan 1 16000).sum = 16000 ∧
    ∃ bytes,
      convert_to_wav 16000 (capturedChunks (1/2) 1 16000) = Except.ok bytes ∧
      bytes.length = 44 + 2 * 16000 := by
  have htf : totalFramesOf 1 16000 = 16000 := by
    rw [totalFramesOf, pyInt, truncQ, if_pos (by norm_num),
      show ⌊(1 : ℚ) * ((16000 : ℕ) : ℚ)⌋ = 16000 by push_cast; norm_num]
    rfl
  have hcs : chunkSizeOf 16000 = 800 := by
    rw [chunkSizeOf, pyInt, truncQ, if_pos (by norm_num),
      show ⌊((16000 : ℕ) : ℚ) * ((5 : ℚ) / 100)⌋ = 800 by push_cast; norm_num]
    rfl
  have hplan : captureFramePlan 1 16000 = List.replicate 20 800 := by
    rw [captureFramePlan, htf, hcs]
    decide
  have hflat : (capturedChunks (1/2) 1 16000).flatten =
      List.replicate 16000 ((1 : ℚ)/2) := by
    rw [capturedChunks, flatten_map_replicate, hplan,
      show (List.replicate 20 800).sum = 16000 by decide]
  refine ⟨by rw [hplan]; decide, ?_⟩
  rcases convert_ok_of_flatten_ne_nil 16000
      (by
        rw [hflat]
        apply List.ne_nil_of_length_pos
        rw [List.length_replicate]
        norm_num) with ⟨p, -, hok⟩
  refine ⟨_, hok, ?_⟩
  rw [wavBytes_length, pcmOf_length, hflat, List.length_replicate]

end PortableShazam
